import Mathlib

/-!
Verification of the structured Reader / validation engine of `cp-libraries`
(files `src/io.hpp`, `src/validation.hpp`, `src/common.hpp`).

The C++ stream is modelled as a `List Char` of remaining input.  Every
fallible operation returns `Except Err (value × List Char)` where the second
component is the input left unconsumed; the single-slot `unget`/pushback of
the source is modelled by returning the pushed-back byte at the head of the
remaining input.  Machine integers are modelled as `Nat`/`Int` with the
type's bounds passed explicitly (`limit` for unsigned types, the bit width
`w` for signed ones), exactly mirroring the arithmetic of the source.
-/

namespace Cplib

/-- The error taxonomy of `common.hpp` / `io.hpp`: `EOFException`,
`UnexpectedReadException` (its two constructors, one taking the offending
character and one taking a description of what was expected),
`OverflowException` (carrying the limit that was exceeded),
`InvalidArgumentException` and `FailedValidationException`. -/
inductive Err where
  | eof
  | unexpectedChar (c : Char)
  | unexpectedRead (s : String)
  | overflow (limit : Nat)
  | invalidArgument (s : String)
  | failedValidation (s : String)
  deriving DecidableEq, Repr

/-- `Reader::is_space` from `io.hpp`. -/
def is_space (c : Char) : Bool :=
  decide (c = ' ') || decide (c = '\t') || decide (c = '\r') || decide (c = '\n')

/-- `Reader::is_numeric` from `io.hpp`: ASCII digit test. -/
def is_numeric (c : Char) : Bool := decide ('0' ≤ c) && decide (c ≤ '9')

/-- The digit value `c - '0'` computed by `read_unsigned_strict`. -/
def digitVal (c : Char) : Nat := c.toNat - '0'.toNat

/-- The accumulation loop of `Reader::read_unsigned_strict` (io.hpp).
State: remaining input, accumulator `n`, flag `start` (no digit read yet).
A non-digit at the start is `UnexpectedReadException(c)`; a non-digit later
ends the token and the byte is pushed back (left in the remaining input);
a digit while `n == 0 && !start && !leading_zeros` is the leading-zero error
`UnexpectedReadException('0')`; before accumulating, the overflow guard
`n > (limit - units) / 10` raises `OverflowException(limit)`.  EOF with
`start` still set propagates; EOF after a digit returns `n`. -/
def read_unsigned_loop (limit : Nat) (leading_zeros : Bool) :
    List Char → Nat → Bool → Except Err (Nat × List Char)
  | [], n, start => if start then .error .eof else .ok (n, [])
  | c :: rest, n, start =>
    if ¬ is_numeric c then
      if start then .error (.unexpectedChar c) else .ok (n, c :: rest)
    else if n = 0 ∧ start = false ∧ leading_zeros = false then
      .error (.unexpectedChar '0')
    else
      let units := digitVal c
      if n > (limit - units) / 10 then .error (.overflow limit)
      else read_unsigned_loop limit leading_zeros rest (10 * n + units) false

/-- `Reader::read_unsigned_strict<T>` where `limit = numeric_limits<T>::max()`. -/
def read_unsigned_strict (limit : Nat) (leading_zeros : Bool)
    (input : List Char) : Except Err (Nat × List Char) :=
  read_unsigned_loop limit leading_zeros input 0 true

/-- `Reader::read_signed_strict<T>` for a `w`-bit two's-complement type:
consume an optional leading `-` (a digit is pushed back, anything else is
`UnexpectedReadException(c)`), read the magnitude with the unsigned type's
limit `2^w - 1`, then compare against `0 - min = 2^(w-1)` when negative or
`max = 2^(w-1) - 1` otherwise, negating via two's complement on success. -/
def read_signed_strict (w : Nat) (leading_zeros : Bool) :
    List Char → Except Err (Int × List Char)
  | [] => .error .eof
  | c :: rest =>
    let go : Bool → List Char → Except Err (Int × List Char) :=
      fun negative inp =>
        match read_unsigned_strict (2 ^ w - 1) leading_zeros inp with
        | .error e => .error e
        | .ok (n, rest2) =>
          let limit : Nat := if negative then 2 ^ (w - 1) else 2 ^ (w - 1) - 1
          if n > limit then .error (.overflow limit)
          else .ok (if negative then -(n : Int) else (n : Int), rest2)
    if c = '-' then go true rest
    else if is_numeric c then go false (c :: rest)
    else .error (.unexpectedChar c)

/-- `Reader::skip_non_numeric`: consume bytes while they are neither digits
nor `-`; the first digit or `-` is pushed back; EOF is swallowed. -/
def skip_non_numeric : List Char → List Char
  | [] => []
  | c :: rest =>
    if is_numeric c = false ∧ c ≠ '-' then skip_non_numeric rest
    else c :: rest

/-- `Reader::read_integer<T>` for unsigned `T`
(`limit = numeric_limits<T>::max()`): in lenient mode first
`skip_non_numeric`, then `read_integer_strict<T>` = `read_unsigned_strict`. -/
def read_integerU (limit : Nat) (strict leading_zeros : Bool)
    (input : List Char) : Except Err (Nat × List Char) :=
  read_unsigned_strict limit leading_zeros
    (if strict then input else skip_non_numeric input)

/-- `Reader::read_integer<T>` for a signed `w`-bit `T`: in lenient mode first
`skip_non_numeric`, then `read_integer_strict<T>` = `read_signed_strict`. -/
def read_integerS (w : Nat) (strict leading_zeros : Bool)
    (input : List Char) : Except Err (Int × List Char) :=
  read_signed_strict w leading_zeros
    (if strict then input else skip_non_numeric input)

/-- `Reader::must_be_newline`: read one byte, on `\r` read a second one; the
(final) byte must be `\n`, otherwise `UnexpectedReadException("newline")`. -/
def must_be_newline : List Char → Except Err (Unit × List Char)
  | [] => .error .eof
  | c :: rest =>
    if c = '\r' then
      match rest with
      | [] => .error .eof
      | c2 :: rest2 =>
        if c2 = '\n' then .ok ((), rest2)
        else .error (.unexpectedRead "newline")
    else if c = '\n' then .ok ((), rest)
    else .error (.unexpectedRead "newline")

/-- Message of `FailedValidationException::interval_constraint` (common.hpp). -/
def intervalMsg (low : Nat) (var : String) (high : Nat) : String :=
  "Expected " ++ toString low ++ " <= " ++ var ++ " <= " ++ toString high

/-- Message of the invalid-character failure in `read_string_strict`: the
source wraps the character in single quotes (written `\x27` here).  Note
that the source calls `to_string(c)` on a `char`, which resolves to
`std::to_string(int)`, printing the character code in decimal. -/
def invalidCharMsg (c : Char) (i : Nat) : String :=
  "Invalid character \x27" ++ toString c.toNat ++ "\x27 at position " ++
    toString i

/-- The loop of `Reader::read_string_strict` (io.hpp).  State: remaining
input, index `i`, accumulated bytes `s` (in reverse).  A separator at `i = 0`
is `UnexpectedReadException("non-space character")`; a later separator is
pushed back and ends the token; otherwise the bound `i >= max_length` is
checked before the byte is consumed, then `check i c`; EOF with `s` empty
propagates.  Every successful exit re-checks `s.size() < min_length`. -/
def read_string_loop (check : Nat → Char → Bool) (min_length max_length : Nat) :
    List Char → Nat → List Char → Except Err (List Char × List Char)
  | [], _, s =>
    if s = [] then .error .eof
    else if s.length < min_length then
      .error (.failedValidation (intervalMsg min_length "len(string)" max_length))
    else .ok (s.reverse, [])
  | c :: rest, i, s =>
    if is_space c then
      if i = 0 then .error (.unexpectedRead "non-space character")
      else if s.length < min_length then
        .error (.failedValidation (intervalMsg min_length "len(string)" max_length))
      else .ok (s.reverse, c :: rest)
    else if i ≥ max_length then
      .error (.failedValidation (intervalMsg min_length "len(string)" max_length))
    else if check i c = false then
      .error (.failedValidation (invalidCharMsg c i))
    else read_string_loop check min_length max_length rest (i + 1) (c :: s)

/-- `Reader::read_string_strict(check_char, min_length, max_length)`. -/
def read_string_strict (check : Nat → Char → Bool) (min_length max_length : Nat)
    (input : List Char) : Except Err (List Char × List Char) :=
  read_string_loop check min_length max_length input 0 []

/-- The loop of `Reader::read_floating_point_strict` (io.hpp).  State:
remaining input, accumulated text `x` (in reverse; the source's
`x_string.back()` is `x.headI`), `is_zero` (no nonzero digit seen) and
`after` (a decimal separator has been consumed).  The final conversion
`istringstream >> x` of the source does not re-validate the text and is not
modelled; the accumulated text itself is returned. -/
def read_fp_loop (leading_zeros : Bool) (sep : Char) :
    List Char → List Char → Bool → Bool → Except Err (List Char × List Char)
  | [], x, _, _ =>
    if x = [] ∨ is_numeric x.headI = false then .error .eof
    else .ok (x.reverse, [])
  | c :: rest, x, is_zero, after =>
    if is_numeric c = false ∧ c ≠ '-' ∧ c ≠ sep then
      if x = [] then .error (.unexpectedChar c)
      else .ok (x.reverse, c :: rest)
    else if c = '-' ∧ x ≠ [] then .error (.unexpectedChar '-')
    else if c = sep then
      if x = [] ∨ x = ['-'] ∨ after = true then .error (.unexpectedChar sep)
      else read_fp_loop leading_zeros sep rest ('.' :: x) is_zero true
    else if is_zero = true ∧ leading_zeros = false ∧ after = false ∧
        x ≠ [] ∧ x ≠ ['-'] then
      .error (.unexpectedChar '0')
    else
      read_fp_loop leading_zeros sep rest (c :: x)
        (if is_numeric c ∧ c ≠ '0' then false else is_zero) after

/-- `Reader::read_floating_point_strict<T>`, up to the final (non-validating)
text-to-number conversion: the accumulated token text is returned. -/
def read_floating_point_strict (leading_zeros : Bool) (sep : Char)
    (input : List Char) : Except Err (List Char × List Char) :=
  read_fp_loop leading_zeros sep input [] true false

/-- `ValidationResult` (validation.hpp): a tagged union of a success message
(the `std::string` alternative of the variant) and a failure
(`FailedValidationException`) carrying its message. -/
inductive ValidationResult where
  | ok (msg : String)
  | fail (msg : String)
  deriving DecidableEq, Repr

namespace ValidationResult

/-- `ValidationResult::success()`. -/
def success : ValidationResult → Bool
  | .ok _ => true
  | .fail _ => false

/-- `ValidationResult::failed()`. -/
def failed : ValidationResult → Bool
  | .ok _ => false
  | .fail _ => true

/-- `ValidationResult::message()`. -/
def message : ValidationResult → String
  | .ok m => m
  | .fail m => m

end ValidationResult

/-- The character transformation of `ValidationResult::indent`: the source
replaces every `\n` by `\n` followed by the two-space indent string. -/
def indentChars : List Char → List Char
  | [] => []
  | c :: rest =>
    if c = '\n' then '\n' :: ' ' :: ' ' :: indentChars rest
    else c :: indentChars rest

/-- `ValidationResult::indent`: prepend two spaces and indent after every
newline. -/
def indent (s : String) : String := "  " ++ String.mk (indentChars s.data)

/-- `ValidationResult::operator!`: flip the tag, re-wrapping the message. -/
def vnot (r : ValidationResult) : ValidationResult :=
  if r.success then .fail ("NOT\n" ++ indent r.message)
  else .ok ("NOT\n" ++ indent r.message)

/-- `operator&&` on `ValidationResult`: both messages are always joined
by `AND`; the result is a success iff both operands are. -/
def vand (a b : ValidationResult) : ValidationResult :=
  let new_message := indent a.message ++ "\nAND\n" ++ indent b.message
  if a.success = true ∧ b.success = true then .ok new_message
  else .fail new_message

/-- `operator||` on `ValidationResult`: both messages are always joined
by `OR`; the result is a success iff at least one operand is. -/
def vor (a b : ValidationResult) : ValidationResult :=
  let new_message := indent a.message ++ "\nOR\n" ++ indent b.message
  if a.success = true ∨ b.success = true then .ok new_message
  else .fail new_message

/-- `cplib::val::between` specialised to `Int` (validation.hpp). -/
def between (x low high : Int) : ValidationResult :=
  let interval := "[" ++ toString low ++ ", " ++ toString high ++ "]"
  if x < low then
    .fail ("Value does not lie in " ++ interval ++ ": " ++ toString x ++
      " < " ++ toString low)
  else if high < x then
    .fail ("Value does not lie in " ++ interval ++ ": " ++ toString x ++
      " > " ++ toString high)
  else .ok ("Value (x = " ++ toString x ++ ") lies in " ++ interval)

/-- `cplib::val::lt` specialised to `Int` (validation.hpp). -/
def lt (a b : Int) : ValidationResult :=
  if a < b then .ok "Comparison satisfied"
  else .fail ("Comparison failed: " ++ toString a ++ " >= " ++ toString b)

/-- One insertion step of the ascending sort performed by `std::sort`
inside `cplib::val::distinct`. -/
def insertSorted (x : Int) : List Int → List Int
  | [] => [x]
  | y :: rest => if x ≤ y then x :: y :: rest else y :: insertSorted x rest

/-- The ascending sort `std::sort(v.begin(), v.end())` used by `distinct`. -/
def sortAsc : List Int → List Int
  | [] => []
  | x :: rest => insertSorted x (sortAsc rest)

/-- The adjacent-pair loop of `cplib::val::distinct`
(`for (it; next(it) != end; ++it)`), run on the sorted copy: the iterator
sits on the first argument, `next(it)` on the head of the second. -/
def dupLoop : Int → List Int → ValidationResult
  | _, [] => .ok "Elements are distinct"
  | x, y :: rest =>
    if x = y then
      .fail ("Elements are not distinct: Multiple occurrences of " ++ toString x)
    else dupLoop y rest

/-- `cplib::val::distinct` on `Int` sequences.  The loop condition
`std::next(it) != v.end()` is evaluated with `it = v.begin()` even when the
sorted copy is empty, which is undefined behaviour in the source; the empty
case is therefore left unmodelled (`none`). -/
def distinct (v : List Int) : Option ValidationResult :=
  match sortAsc v with
  | [] => none
  | x :: rest => some (dupLoop x rest)

/-- The comparison lambda built by `cplib::val::sorted(begin, end, strict,
decreasing)`. -/
def sortedCompare (strict decreasing : Bool) (a b : Int) : Bool :=
  let check_increasing := if strict then decide (a < b) else ! decide (b < a)
  if decreasing then ! check_increasing else check_increasing

/-- The adjacent-pair loop of the comparator-driven `cplib::val::sorted`:
the iterator sits on the first `Int` argument at position `pos`. -/
def sortedLoop (compare : Int → Int → Bool) :
    Int → Nat → List Int → ValidationResult
  | _, _, [] => .ok "Array is sorted"
  | x, pos, y :: rest =>
    if compare x y = false then
      .fail ("Array is not sorted: Wrong order at positions " ++
        toString pos ++ " and " ++ toString (pos + 1))
    else sortedLoop compare y (pos + 1) rest

/-- `cplib::val::sorted(v, strict, decreasing)` on `Int` sequences.  As with
`distinct`, the loop evaluates `std::next(begin) != end` on an empty
sequence — undefined behaviour — so the empty case is left unmodelled. -/
def sorted (v : List Int) (strict decreasing : Bool) :
    Option ValidationResult :=
  match v with
  | [] => none
  | x :: rest => some (sortedLoop (sortedCompare strict decreasing) x 0 rest)

/-- Decimal printing of a natural number, most significant digit first:
the behaviour of `operator<<(ostream, T)` used by `Writer::write_integer`. -/
def writeNat (n : Nat) : List Char :=
  if n < 10 then [Nat.digitChar n]
  else writeNat (n / 10) ++ [Nat.digitChar (n % 10)]
decreasing_by exact Nat.div_lt_self (by omega) (by omega)

/-- `Writer::write_integer` for a signed value: `ostream` prints a `-`
followed by the decimal magnitude for negatives. -/
def write_integer (x : Int) : List Char :=
  if x < 0 then '-' :: writeNat x.natAbs else writeNat x.toNat

/-- The value of a digit string continued from accumulator `a`, following
the accumulation `n = 10 * n + units` of `read_unsigned_strict`. -/
def digitsVal (a : Nat) : List Char → Nat
  | [] => a
  | c :: rest => digitsVal (10 * a + digitVal c) rest

/-- A byte run is a valid string token from index `i` on: every byte is a
non-separator accepted by `check` at its position. -/
def goodFrom (check : Nat → Char → Bool) : Nat → List Char → Bool
  | _, [] => true
  | i, c :: rest => !is_space c && check i c && goodFrom check (i + 1) rest

/-- `small` occurs contiguously inside `big`. -/
def containsStr (big small : String) : Prop := small.data <:+: big.data

end Cplib

deriving instance DecidableEq for Except

namespace Cplib

theorem digitsVal_nil (a : Nat) : digitsVal a [] = a := rfl

theorem digitsVal_cons (a : Nat) (c : Char) (rest : List Char) :
    digitsVal a (c :: rest) = digitsVal (10 * a + digitVal c) rest := rfl

theorem digitsVal_append (xs ys : List Char) (a : Nat) :
    digitsVal a (xs ++ ys) = digitsVal (digitsVal a xs) ys := by
  induction xs generalizing a with
  | nil => rfl
  | cons c rest ih => rw [List.cons_append, digitsVal_cons, digitsVal_cons, ih]

theorem le_digitsVal (a : Nat) (ds : List Char) : a ≤ digitsVal a ds := by
  induction ds generalizing a with
  | nil => exact Nat.le_refl a
  | cons c rest ih =>
    rw [digitsVal_cons]
    exact Nat.le_trans (by omega) (ih (10 * a + digitVal c))

theorem digitVal_digitChar (d : Nat) (h : d < 10) :
    digitVal (Nat.digitChar d) = d ∧ is_numeric (Nat.digitChar d) = true ∧
      Nat.digitChar d ≠ '-' := by
  interval_cases d <;> exact ⟨by decide, by decide, by decide⟩

theorem writeNat_spec (n : Nat) :
    writeNat n ≠ [] ∧ (∀ c ∈ writeNat n, is_numeric c = true) ∧
      (∀ a, digitsVal a (writeNat n) = a * 10 ^ (writeNat n).length + n) := by
  induction n using writeNat.induct with
  | case1 n h =>
    rw [writeNat, if_pos h]
    refine ⟨by simp, ?_, ?_⟩
    · intro c hc
      simp at hc
      subst hc
      exact (digitVal_digitChar n h).2.1
    · intro a
      rw [digitsVal_cons, digitsVal_nil, (digitVal_digitChar n h).1]
      simp
      omega
  | case2 n h ih =>
    rw [writeNat, if_neg h]
    obtain ⟨hne, hnum, hval⟩ := ih
    refine ⟨by simp [hne], ?_, ?_⟩
    · intro c hc
      simp at hc
      rcases hc with hc | hc
      · exact hnum c hc
      · subst hc
        exact (digitVal_digitChar _ (Nat.mod_lt _ (by omega))).2.1
    · intro a
      rw [digitsVal_append, hval a, digitsVal_cons, digitsVal_nil,
        (digitVal_digitChar _ (Nat.mod_lt _ (by omega))).1]
      simp [Nat.pow_succ]
      ring_nf
      omega

theorem is_numeric_bounds (c : Char) (h : is_numeric c = true) :
    48 ≤ c.toNat ∧ c.toNat ≤ 57 := by
  simp [is_numeric, Char.le_def] at h
  exact h

theorem digitVal_le_nine (c : Char) (h : is_numeric c = true) : digitVal c ≤ 9 := by
  have hb := is_numeric_bounds c h
  have h0 : Char.toNat '0' = 48 := rfl
  unfold digitVal
  rw [h0]
  omega

theorem is_numeric_ne_dash (c : Char) (h : is_numeric c = true) : c ≠ '-' := by
  intro heq
  subst heq
  exact absurd h (by decide)

theorem writeNat_head (n : Nat) (h : n ≠ 0) :
    ∃ c ds, writeNat n = c :: ds ∧ 1 ≤ digitVal c := by
  induction n using writeNat.induct with
  | case1 n h10 =>
    refine ⟨Nat.digitChar n, [], by rw [writeNat, if_pos h10], ?_⟩
    rw [(digitVal_digitChar n h10).1]
    omega
  | case2 n h10 ih =>
    obtain ⟨c, ds, hds, hc⟩ := ih (by omega)
    exact ⟨c, ds ++ [Nat.digitChar (n % 10)],
      by rw [writeNat, if_neg h10, hds]; rfl, hc⟩

theorem read_loop_digits (limit : Nat) (lz : Bool) (ds : List Char) :
    ∀ a, (∀ c ∈ ds, is_numeric c = true) → (1 ≤ a ∨ lz = true) →
    digitsVal a ds ≤ limit →
    read_unsigned_loop limit lz ds a false = .ok (digitsVal a ds, []) := by
  induction ds with
  | nil =>
    intro a _ _ _
    simp [read_unsigned_loop, digitsVal_nil]
  | cons c rest ih =>
    intro a hnum hpos hle
    have hc : is_numeric c = true := hnum c (by simp)
    have hdv : digitVal c ≤ 9 := digitVal_le_nine c hc
    have hstep : 10 * a + digitVal c ≤ digitsVal a (c :: rest) := by
      rw [digitsVal_cons]
      exact le_digitsVal _ _
    have hkey : 10 * a + digitVal c ≤ limit := le_trans hstep hle
    unfold read_unsigned_loop
    rw [if_neg (by simp [hc])]
    rw [if_neg (by rcases hpos with h | h <;> simp [h]; omega)]
    rw [if_neg (by
      simp only [gt_iff_lt, not_lt]
      rw [Nat.le_div_iff_mul_le (by omega)]
      omega)]
    rw [digitsVal_cons]
    exact ih (10 * a + digitVal c) (fun d hd => hnum d (by simp [hd]))
      (by rcases hpos with h | h
          · left; omega
          · right; exact h)
      (by rw [digitsVal_cons] at hle; exact hle)

theorem read_unsigned_writeNat (limit : Nat) (lz : Bool) (n : Nat)
    (h : n ≤ limit) : read_unsigned_strict limit lz (writeNat n) = .ok (n, []) := by
  obtain ⟨hne, hnum, hval⟩ := writeNat_spec n
  by_cases h0 : n = 0
  · subst h0
    have hw0 : writeNat 0 = ['0'] := by rw [writeNat]; decide
    have hd0 : digitVal '0' = 0 := rfl
    rw [read_unsigned_strict, hw0]
    unfold read_unsigned_loop
    rw [if_neg (by decide)]
    rw [if_neg (by simp)]
    rw [hd0]
    rw [if_neg (by omega)]
    unfold read_unsigned_loop
    norm_num
  · obtain ⟨c, ds, hds, hc1⟩ := writeNat_head n h0
    have hcn : is_numeric c = true := hnum c (by rw [hds]; simp)
    have hdval : digitsVal 0 (writeNat n) = n := by
      rw [hval 0]; omega
    rw [read_unsigned_strict, hds]
    unfold read_unsigned_loop
    rw [if_neg (by simp [hcn])]
    rw [if_neg (by simp)]
    rw [if_neg (by simp)]
    have hrw : (10 * 0 + digitVal c) = digitVal c := by omega
    rw [hrw]
    have hres := read_loop_digits limit lz ds (digitVal c)
      (fun d hd => hnum d (by rw [hds]; simp [hd]))
      (Or.inl hc1)
      (by
        have : digitsVal (digitVal c) ds = n := by
          rw [← hdval, hds, digitsVal_cons]
          norm_num
        omega)
    rw [hres]
    congr 1
    have : digitsVal (digitVal c) ds = n := by
      rw [← hdval, hds, digitsVal_cons]
      norm_num
    rw [this]

theorem skip_non_numeric_dash (rest : List Char) :
    skip_non_numeric ('-' :: rest) = '-' :: rest := by
  unfold skip_non_numeric
  rw [if_neg (by simp)]

theorem skip_non_numeric_digit (c : Char) (rest : List Char)
    (h : is_numeric c = true) : skip_non_numeric (c :: rest) = c :: rest := by
  unfold skip_non_numeric
  rw [if_neg (by simp [h])]

theorem read_signed_dash (w : Nat) (lz : Bool) (rest : List Char) :
    read_signed_strict w lz ('-' :: rest) =
      match read_unsigned_strict (2 ^ w - 1) lz rest with
      | .error e => .error e
      | .ok (n, rest2) =>
        if n > 2 ^ (w - 1) then .error (.overflow (2 ^ (w - 1)))
        else .ok (-(n : Int), rest2) := by
  simp only [read_signed_strict, if_pos rfl, if_true]

theorem read_signed_digit (w : Nat) (lz : Bool) (c : Char) (rest : List Char)
    (hc : is_numeric c = true) :
    read_signed_strict w lz (c :: rest) =
      match read_unsigned_strict (2 ^ w - 1) lz (c :: rest) with
      | .error e => .error e
      | .ok (n, rest2) =>
        if n > 2 ^ (w - 1) - 1 then .error (.overflow (2 ^ (w - 1) - 1))
        else .ok ((n : Int), rest2) := by
  have hd : c ≠ '-' := is_numeric_ne_dash c hc
  simp only [read_signed_strict, if_neg hd, if_pos hc, Bool.false_eq_true, if_false]

theorem two_pow_halves (w : Nat) (h : 1 ≤ w) : 2 ^ w = 2 * 2 ^ (w - 1) := by
  conv_lhs => rw [show w = (w - 1) + 1 by omega]
  rw [pow_succ]
  ring

theorem read_signed_write (w : Nat) (lz : Bool) (n : Int) (h1 : 1 ≤ w)
    (h2 : -(2 ^ (w - 1) : Int) ≤ n) (h3 : n ≤ 2 ^ (w - 1) - 1) :
    read_signed_strict w lz (write_integer n) = .ok (n, []) := by
  have hpow : (2 : Nat) ^ w = 2 * 2 ^ (w - 1) := two_pow_halves w h1
  have hone : 1 ≤ (2 : Nat) ^ (w - 1) := Nat.one_le_two_pow
  have hcast : ((2 ^ (w - 1) : Nat) : Int) = (2 ^ (w - 1) : Int) := by push_cast; rfl
  by_cases hneg : n < 0
  · have habs : n.natAbs ≤ 2 ^ (w - 1) := by omega
    rw [write_integer, if_pos hneg, read_signed_dash,
      read_unsigned_writeNat _ _ _ (by omega)]
    simp only [gt_iff_lt, not_lt]
    rw [if_neg (by omega)]
    congr 1
    refine Prod.ext ?_ rfl
    simp only
    omega
  · have htoNat : n.toNat ≤ 2 ^ (w - 1) - 1 := by omega
    rw [write_integer, if_neg hneg]
    obtain ⟨hne, hnum, _⟩ := writeNat_spec n.toNat
    obtain ⟨c, ds, hds⟩ := List.exists_cons_of_ne_nil hne
    have hcn : is_numeric c = true := hnum c (by rw [hds]; simp)
    rw [hds, read_signed_digit w lz c ds hcn, ← hds,
      read_unsigned_writeNat _ _ _ (by omega)]
    simp only [gt_iff_lt, not_lt]
    rw [if_neg (by omega)]
    congr 1
    refine Prod.ext ?_ rfl
    simp only
    omega

theorem read_loop_le (limit : Nat) (lz : Bool) (input : List Char) :
    ∀ a start n rest, 9 ≤ limit → a ≤ limit →
    read_unsigned_loop limit lz input a start = .ok (n, rest) → n ≤ limit := by
  induction input with
  | nil =>
    intro a start n rest _ ha h
    unfold read_unsigned_loop at h
    by_cases hs : start = true
    · rw [if_pos hs] at h
      exact absurd h (by simp)
    · rw [if_neg hs] at h
      simp only [Except.ok.injEq, Prod.mk.injEq] at h
      omega
  | cons c cs ih =>
    intro a start n rest h9 ha h
    unfold read_unsigned_loop at h
    by_cases hc : is_numeric c = true
    · rw [if_neg (by simp [hc])] at h
      by_cases hz : a = 0 ∧ start = false ∧ lz = false
      · rw [if_pos hz] at h
        exact absurd h (by simp)
      · rw [if_neg hz] at h
        simp only at h
        by_cases hov : a > (limit - digitVal c) / 10
        · rw [if_pos hov] at h
          exact absurd h (by simp)
        · rw [if_neg hov] at h
          have hdv : digitVal c ≤ 9 := digitVal_le_nine c hc
          have hle : 10 * a + digitVal c ≤ limit := by
            simp only [gt_iff_lt, not_lt] at hov
            rw [Nat.le_div_iff_mul_le (by omega)] at hov
            omega
          exact ih (10 * a + digitVal c) false n rest h9 hle h
    · rw [if_pos (by simp [hc])] at h
      by_cases hs : start = true
      · rw [if_pos hs] at h
        exact absurd h (by simp)
      · rw [if_neg hs] at h
        simp only [Except.ok.injEq, Prod.mk.injEq] at h
        omega

end Cplib

namespace Cplib

theorem read_unsigned_leading_zero (limit : Nat) (c : Char) (rest : List Char)
    (hc : is_numeric c = true) :
    read_unsigned_strict limit false ('0' :: c :: rest) =
      .error (.unexpectedChar '0') := by
  rw [read_unsigned_strict]
  unfold read_unsigned_loop
  rw [if_neg (by decide)]
  rw [if_neg (by simp)]
  rw [show digitVal '0' = 0 from rfl]
  rw [if_neg (by omega)]
  rw [show (10 * 0 + 0 : Nat) = 0 from rfl]
  unfold read_unsigned_loop
  rw [if_neg (by simp [hc])]
  rw [if_pos ⟨rfl, rfl, rfl⟩]

theorem read_unsigned_single_zero (limit : Nat) (lz : Bool) :
    read_unsigned_strict limit lz ['0'] = .ok (0, []) := by
  rw [read_unsigned_strict]
  unfold read_unsigned_loop
  rw [if_neg (by decide)]
  rw [if_neg (by simp)]
  rw [show digitVal '0' = 0 from rfl]
  rw [if_neg (by omega)]
  rw [show (10 * 0 + 0 : Nat) = 0 from rfl]
  unfold read_unsigned_loop
  simp

/-- Claim C1: `read_integer<T>` never wraps or truncates: the accumulator of
`read_unsigned_strict` stays within the type's `limit` on every successful
parse (first conjunct, for any real limit, i.e. `9 ≤ limit`); parsing
`"2147483648"` as int32 raises `IntegerOverflow` with the signed limit,
parsing `"-2147483648"` as int32 returns the minimum representable value
`-2^31`, and parsing `"4294967296"` as uint32 raises `IntegerOverflow`. -/
theorem c1_overflow_policy :
    (∀ limit lz input a start n rest, 9 ≤ limit → a ≤ limit →
      read_unsigned_loop limit lz input a start = .ok (n, rest) → n ≤ limit) ∧
    read_integerS 32 true false (String.data "2147483648") =
      .error (.overflow (2 ^ 31 - 1)) ∧
    read_integerS 32 true false (String.data "-2147483648") =
      .ok (-(2 ^ 31 : Int), []) ∧
    read_integerU (2 ^ 32 - 1) true false (String.data "4294967296") =
      .error (.overflow (2 ^ 32 - 1)) :=
  ⟨fun limit lz input a start n rest h9 ha h =>
    read_loop_le limit lz input a start n rest h9 ha h,
   by decide, by decide, by decide⟩

/-- Witness for C1: the general bound applies at a concrete parse. -/
theorem c1_overflow_policy_witness :
    read_unsigned_loop 9 false ['5'] 0 true = .ok (5, []) ∧ 5 ≤ 9 :=
  ⟨by decide,
   c1_overflow_policy.1 9 false ['5'] 0 true 5 [] (by decide) (by decide)
     (by decide)⟩

/-- Claim C2: write/read round-trip.  Writing any `n` within the type's
range as decimal text with the Writer and reading it back with
`read_integer` under the same mode and leading-zero flags yields exactly
`n`, both for unsigned types (any `limit ≥ n`) and for signed `w`-bit
types (any `n` in `[-2^(w-1), 2^(w-1) - 1]`). -/
theorem c2_write_read_roundtrip :
    (∀ limit strict lz n, n ≤ limit →
      read_integerU limit strict lz (writeNat n) = .ok (n, [])) ∧
    (∀ w strict lz n, 1 ≤ w → -(2 ^ (w - 1) : Int) ≤ n →
      n ≤ 2 ^ (w - 1) - 1 →
      read_integerS w strict lz (write_integer n) = .ok (n, [])) := by
  constructor
  · intro limit strict lz n h
    obtain ⟨hne, hnum, _⟩ := writeNat_spec n
    obtain ⟨c, ds, hds⟩ := List.exists_cons_of_ne_nil hne
    have hcn : is_numeric c = true := hnum c (by rw [hds]; simp)
    have hskip : skip_non_numeric (writeNat n) = writeNat n := by
      rw [hds]
      exact skip_non_numeric_digit c ds hcn
    unfold read_integerU
    cases strict with
    | true => rw [if_pos rfl]; exact read_unsigned_writeNat limit lz n h
    | false =>
      rw [if_neg (by simp), hskip]
      exact read_unsigned_writeNat limit lz n h
  · intro w strict lz n h1 h2 h3
    have hskip : skip_non_numeric (write_integer n) = write_integer n := by
      by_cases hneg : n < 0
      · rw [write_integer, if_pos hneg]
        exact skip_non_numeric_dash _
      · rw [write_integer, if_neg hneg]
        obtain ⟨hne, hnum, _⟩ := writeNat_spec n.toNat
        obtain ⟨c, ds, hds⟩ := List.exists_cons_of_ne_nil hne
        have hcn : is_numeric c = true := hnum c (by rw [hds]; simp)
        rw [hds]
        exact skip_non_numeric_digit c ds hcn
    unfold read_integerS
    cases strict with
    | true => rw [if_pos rfl]; exact read_signed_write w lz n h1 h2 h3
    | false =>
      rw [if_neg (by simp), hskip]
      exact read_signed_write w lz n h1 h2 h3

/-- Witness for C2: round-trip at `n = 42` for a concrete unsigned limit and
at `n = -42` for int32, in both strict and lenient mode. -/
theorem c2_write_read_roundtrip_witness :
    read_integerU 100 true false (writeNat 42) = .ok (42, []) ∧
    read_integerS 32 false true (write_integer (-42)) = .ok (-42, []) :=
  ⟨c2_write_read_roundtrip.1 100 true false 42 (by norm_num),
   c2_write_read_roundtrip.2 32 false true (-42) (by norm_num) (by norm_num)
     (by norm_num)⟩

/-- Claim C3: leading-zero policy.  By default a digit run of length > 1
whose first digit is `0` raises `UnexpectedToken('0')` (first conjunct: for
every limit and every continuation after the two digits); the single digit
`"0"` always parses to 0 (second conjunct, under both flag values); the
spec's concrete inputs `"042"`, `"000"`, `"-0042"` fail by default and all
parse once `allow_leading_zeros` is set. -/
theorem c3_leading_zero_policy :
    (∀ limit c rest, is_numeric c = true →
      read_unsigned_strict limit false ('0' :: c :: rest) =
        .error (.unexpectedChar '0')) ∧
    (∀ limit lz, read_unsigned_strict limit lz ['0'] = .ok (0, [])) ∧
    read_integerU (2 ^ 32 - 1) true false (String.data "042") =
      .error (.unexpectedChar '0') ∧
    read_integerU (2 ^ 32 - 1) true false (String.data "000") =
      .error (.unexpectedChar '0') ∧
    read_integerS 32 true false (String.data "-0042") =
      .error (.unexpectedChar '0') ∧
    read_integerU (2 ^ 32 - 1) true true (String.data "042") = .ok (42, []) ∧
    read_integerU (2 ^ 32 - 1) true true (String.data "000") = .ok (0, []) ∧
    read_integerS 32 true true (String.data "-0042") = .ok (-42, []) :=
  ⟨read_unsigned_leading_zero, read_unsigned_single_zero,
   by decide, by decide, by decide, by decide, by decide, by decide⟩

/-- Witness for C3: the general leading-zero rejection applies at `"01"`. -/
theorem c3_leading_zero_policy_witness :
    read_unsigned_strict 9 false ('0' :: '1' :: []) =
      .error (.unexpectedChar '0') :=
  c3_leading_zero_policy.1 9 '1' [] (by decide)

end Cplib

namespace Cplib

theorem read_unsigned_nondigit (limit : Nat) (lz : Bool) (c : Char)
    (rest : List Char) (hc : is_numeric c = false) :
    read_unsigned_strict limit lz (c :: rest) = .error (.unexpectedChar c) := by
  rw [read_unsigned_strict]
  unfold read_unsigned_loop
  rw [if_pos (by simp [hc])]
  rw [if_pos rfl]

theorem skip_non_numeric_cons (c : Char) (rest : List Char) :
    skip_non_numeric (c :: rest) =
      if is_numeric c = false ∧ c ≠ '-' then skip_non_numeric rest
      else c :: rest := rfl

theorem skip_non_numeric_all (input : List Char)
    (h : ∀ c ∈ input, is_numeric c = false ∧ c ≠ '-') :
    skip_non_numeric input = [] := by
  induction input with
  | nil => rfl
  | cons c rest ih =>
    rw [skip_non_numeric_cons, if_pos (h c (by simp))]
    exact ih (fun d hd => h d (by simp [hd]))

theorem skip_non_numeric_append (noise l : List Char)
    (h : ∀ c ∈ noise, is_numeric c = false ∧ c ≠ '-') :
    skip_non_numeric (noise ++ l) = skip_non_numeric l := by
  induction noise with
  | nil => rfl
  | cons c rest ih =>
    rw [List.cons_append, skip_non_numeric_cons, if_pos (h c (by simp))]
    exact ih (fun d hd => h d (by simp [hd]))

/-- Counterexample to C4 as stated: the lenient input `"-"` contains no
digit anywhere, yet `read_integer` over an unsigned type raises
`UnexpectedToken('-')`, not `Eof` (the stray `-` is never skipped by
`skip_non_numeric`). -/
theorem c4_eof_vs_malformed_counterexample :
    read_integerU (2 ^ 32 - 1) false false (String.data "-") =
      .error (.unexpectedChar '-') ∧
    Err.unexpectedChar '-' ≠ Err.eof :=
  ⟨by decide, by decide⟩

/-- Claim C4, amended: in lenient mode, on input containing no digit AND no
`-` anywhere, `read_integer` raises `Eof` (for unsigned and signed types
alike), not `UnexpectedToken`; reaching end-of-input after at least one
digit has been consumed is successful termination returning the parsed
value; a non-digit byte after at least one digit ends the token and is
pushed back, not consumed. -/
theorem c4_eof_vs_malformed :
    (∀ limit w lz input, (∀ c ∈ input, is_numeric c = false ∧ c ≠ '-') →
      read_integerU limit false lz input = .error .eof ∧
      read_integerS w false lz input = .error .eof) ∧
    (∀ limit lz a, read_unsigned_loop limit lz [] a false = .ok (a, [])) ∧
    (∀ limit lz a c rest, is_numeric c = false →
      read_unsigned_loop limit lz (c :: rest) a false = .ok (a, c :: rest)) := by
  refine ⟨?_, ?_, ?_⟩
  · intro limit w lz input h
    have hs := skip_non_numeric_all input h
    constructor
    · rw [read_integerU, if_neg (by simp), hs]
      rfl
    · rw [read_integerS, if_neg (by simp), hs]
      rfl
  · intro limit lz a
    simp [read_unsigned_loop]
  · intro limit lz a c rest hc
    unfold read_unsigned_loop
    rw [if_pos (by simp [hc])]
    rw [if_neg (by simp)]

/-- Witness for C4 (amended): purely alphabetic input raises `Eof` for both
uint32 and int32, and a pushback happens after the digit run of `"7x"`. -/
theorem c4_eof_vs_malformed_witness :
    (read_integerU (2 ^ 32 - 1) false false (String.data "abc") =
        .error .eof ∧
      read_integerS 32 false false (String.data "abc") = .error .eof) ∧
    read_unsigned_loop (2 ^ 32 - 1) false ('x' :: []) 7 false =
      .ok (7, 'x' :: []) :=
  ⟨c4_eof_vs_malformed.1 (2 ^ 32 - 1) 32 false (String.data "abc")
     (by decide),
   c4_eof_vs_malformed.2.2 (2 ^ 32 - 1) false 7 'x' [] (by decide)⟩

/-- Claim C8: `must_be_newline` consumes exactly one newline token,
accepting both a bare `\n` and the pair `\r\n` (the rest of the input is
untouched), and raises `UnexpectedToken` when the consumed byte(s) do not
match: a `\r` followed by any byte other than `\n`, or any first byte other
than `\n` and `\r`. -/
theorem c8_must_be_newline :
    (∀ rest, must_be_newline ('\n' :: rest) = .ok ((), rest)) ∧
    (∀ rest, must_be_newline ('\r' :: '\n' :: rest) = .ok ((), rest)) ∧
    (∀ c rest, c ≠ '\n' →
      must_be_newline ('\r' :: c :: rest) = .error (.unexpectedRead "newline")) ∧
    (∀ c rest, c ≠ '\n' → c ≠ '\r' →
      must_be_newline (c :: rest) = .error (.unexpectedRead "newline")) := by
  refine ⟨?_, ?_, ?_, ?_⟩
  · intro rest
    simp [must_be_newline]
  · intro rest
    simp [must_be_newline]
  · intro c rest hc
    simp [must_be_newline, hc]
  · intro c rest hn hr
    simp [must_be_newline, hn, hr]

/-- Witness for C8: the mismatch cases apply at `\r` followed by `x` and at
a bare `x`. -/
theorem c8_must_be_newline_witness :
    must_be_newline ('\r' :: 'x' :: []) = .error (.unexpectedRead "newline") ∧
    must_be_newline ('x' :: []) = .error (.unexpectedRead "newline") :=
  ⟨c8_must_be_newline.2.2.1 'x' [] (by decide),
   c8_must_be_newline.2.2.2 'x' [] (by decide) (by decide)⟩

/-- Counterexample to C9 as stated: for a signed type in lenient mode, a
first `-` that is followed by nothing at all (end of input) — hence not
"immediately followed by a digit" — raises `Eof`, not `UnexpectedToken`. -/
theorem c9_dash_noise_counterexample :
    read_integerS 32 false false (String.data "-") = .error .eof ∧
    Err.eof ≠ Err.unexpectedChar '-' :=
  ⟨by decide, by decide⟩

/-- Claim C9, amended: `skip_non_numeric` stops at `-` just as at a digit,
so a `-` in the noise is never skipped: over a signed type, lenient
`read_integer` raises `UnexpectedToken` whenever the first `-` it reaches is
followed by a non-digit byte (and `Eof` when the `-` is the last byte);
over an unsigned type it raises `UnexpectedToken('-')` on any token
beginning with `-` — never treating the stray `-` as skippable noise. -/
theorem c9_dash_not_skippable :
    (∀ rest, skip_non_numeric ('-' :: rest) = '-' :: rest) ∧
    (∀ c rest, is_numeric c = true → skip_non_numeric (c :: rest) = c :: rest) ∧
    (∀ w lz noise c rest, (∀ d ∈ noise, is_numeric d = false ∧ d ≠ '-') →
      is_numeric c = false →
      read_integerS w false lz (noise ++ '-' :: c :: rest) =
        .error (.unexpectedChar c)) ∧
    (∀ w lz noise, (∀ d ∈ noise, is_numeric d = false ∧ d ≠ '-') →
      read_integerS w false lz (noise ++ ['-']) = .error .eof) ∧
    (∀ limit lz noise rest, (∀ d ∈ noise, is_numeric d = false ∧ d ≠ '-') →
      read_integerU limit false lz (noise ++ '-' :: rest) =
        .error (.unexpectedChar '-')) := by
  refine ⟨skip_non_numeric_dash, skip_non_numeric_digit, ?_, ?_, ?_⟩
  · intro w lz noise c rest hnoise hc
    rw [read_integerS, if_neg (by simp), skip_non_numeric_append _ _ hnoise,
      skip_non_numeric_dash, read_signed_dash,
      read_unsigned_nondigit _ _ _ _ hc]
  · intro w lz noise hnoise
    rw [read_integerS, if_neg (by simp), skip_non_numeric_append _ _ hnoise,
      skip_non_numeric_dash, read_signed_dash]
    rfl
  · intro limit lz noise rest hnoise
    rw [read_integerU, if_neg (by simp), skip_non_numeric_append _ _ hnoise,
      skip_non_numeric_dash, read_unsigned_nondigit _ _ _ _ (by decide)]

/-- Witness for C9 (amended): with noise `"ab"` before the `-`, the signed
reader blames the byte after the `-` and the unsigned reader blames the
`-` itself. -/
theorem c9_dash_not_skippable_witness :
    read_integerS 32 false false (String.data "ab-x1") =
      .error (.unexpectedChar 'x') ∧
    read_integerU (2 ^ 32 - 1) false false (String.data "ab-12") =
      .error (.unexpectedChar '-') :=
  ⟨by
    have h := c9_dash_not_skippable.2.2.1 32 false ('a' :: 'b' :: [])
      'x' ('1' :: []) (by decide) (by decide)
    exact h,
   by
    have h := c9_dash_not_skippable.2.2.2.2 (2 ^ 32 - 1) false
      ('a' :: 'b' :: []) ('1' :: '2' :: []) (by decide)
    exact h⟩

end Cplib

namespace Cplib

theorem read_string_loop_consume (check : Nat → Char → Bool)
    (minL maxL : Nat) (t : List Char) :
    ∀ i acc rest, goodFrom check i t = true → i + t.length ≤ maxL →
    read_string_loop check minL maxL (t ++ rest) i acc =
      read_string_loop check minL maxL rest (i + t.length) (t.reverse ++ acc) := by
  induction t with
  | nil =>
    intro i acc rest _ _
    simp
  | cons c t ih =>
    intro i acc rest hg hlen
    simp only [goodFrom, Bool.and_eq_true, Bool.not_eq_eq_eq_not,
      Bool.not_true] at hg
    obtain ⟨⟨hsp, hchk⟩, hrest⟩ := hg
    have hlen1 : i + (t.length + 1) ≤ maxL := by simpa using hlen
    have h1 : i + (c :: t).length = (i + 1) + t.length := by simp; omega
    have h2 : (c :: t).reverse ++ acc = t.reverse ++ (c :: acc) := by simp
    rw [List.cons_append, h1, h2, read_string_loop]
    rw [if_neg (by simp [hsp])]
    rw [if_neg (by omega)]
    rw [if_neg (by simp [hchk])]
    exact ih (i + 1) (c :: acc) rest hrest (by omega)

theorem read_string_loop_nil (check : Nat → Char → Bool) (minL maxL : Nat) :
    read_string_loop check minL maxL [] = fun _ s =>
      if s = [] then .error .eof
      else if s.length < minL then
        .error (.failedValidation (intervalMsg minL "len(string)" maxL))
      else .ok (s.reverse, []) := rfl

/-- Claim C5: `read_string` with bounds.  (1) A first byte that is a
separator raises `UnexpectedToken`; (2) the length bound is checked before
consuming byte `i`, so a token of exactly `max_length` valid bytes followed
by a separator succeeds and is returned, (3) likewise at end-of-input;
(4) a non-separator byte at position `max_length` raises `FailedValidation`
with the interval-constraint-on-length message; (5) a byte rejected by
`check` raises `FailedValidation` naming the character (by its code, as the
source's `to_string(char)` prints) and its position; (6) fewer than
`min_length` accepted bytes at end raises the interval `FailedValidation`;
(7) `Eof` before any byte propagates `Eof`. -/
theorem c5_read_string_bounds :
    (∀ check minL maxL c rest, is_space c = true →
      read_string_strict check minL maxL (c :: rest) =
        .error (.unexpectedRead "non-space character")) ∧
    (∀ check minL maxL t sep rest, t ≠ [] → t.length = maxL → minL ≤ maxL →
      goodFrom check 0 t = true → is_space sep = true →
      read_string_strict check minL maxL (t ++ sep :: rest) =
        .ok (t, sep :: rest)) ∧
    (∀ check minL maxL t, t ≠ [] → t.length = maxL → minL ≤ maxL →
      goodFrom check 0 t = true →
      read_string_strict check minL maxL t = .ok (t, [])) ∧
    (∀ check minL maxL t c rest, t.length = maxL → goodFrom check 0 t = true →
      is_space c = false →
      read_string_strict check minL maxL (t ++ c :: rest) =
        .error (.failedValidation (intervalMsg minL "len(string)" maxL))) ∧
    (∀ check minL maxL t c rest, goodFrom check 0 t = true →
      t.length < maxL → is_space c = false → check t.length c = false →
      read_string_strict check minL maxL (t ++ c :: rest) =
        .error (.failedValidation (invalidCharMsg c t.length))) ∧
    (∀ check minL maxL t, t ≠ [] → goodFrom check 0 t = true →
      t.length ≤ maxL → t.length < minL →
      read_string_strict check minL maxL t =
        .error (.failedValidation (intervalMsg minL "len(string)" maxL))) ∧
    (∀ check minL maxL,
      read_string_strict check minL maxL [] = .error .eof) := by
  refine ⟨?_, ?_, ?_, ?_, ?_, ?_, ?_⟩
  · intro check minL maxL c rest hsp
    rw [read_string_strict]
    unfold read_string_loop
    rw [if_pos hsp, if_pos rfl]
  · intro check minL maxL t sep rest hne hlen hminmax hg hsep
    have hpos : 0 < t.length := List.length_pos.mpr hne
    rw [read_string_strict,
      read_string_loop_consume check minL maxL t 0 [] (sep :: rest) hg
        (by omega)]
    unfold read_string_loop
    rw [if_pos hsep]
    rw [if_neg (by omega)]
    rw [if_neg (by simp; omega)]
    simp
  · intro check minL maxL t hne hlen hminmax hg
    have hpos : 0 < t.length := List.length_pos.mpr hne
    rw [read_string_strict, ← List.append_nil t,
      read_string_loop_consume check minL maxL t 0 [] [] hg (by simp; omega)]
    unfold read_string_loop
    rw [if_neg (by simp; intro h; exact hne (by simpa using h))]
    rw [if_neg (by simp; omega)]
    simp
  · intro check minL maxL t c rest hlen hg hsp
    rw [read_string_strict,
      read_string_loop_consume check minL maxL t 0 [] (c :: rest) hg
        (by omega)]
    unfold read_string_loop
    rw [if_neg (by simp [hsp])]
    rw [if_pos (by omega)]
  · intro check minL maxL t c rest hg hlen hsp hchk
    rw [read_string_strict,
      read_string_loop_consume check minL maxL t 0 [] (c :: rest) hg
        (by omega)]
    unfold read_string_loop
    rw [if_neg (by simp [hsp])]
    rw [if_neg (by omega)]
    rw [if_pos (by simpa using hchk)]
    simp
  · intro check minL maxL t hne hg hle hmin
    have hpos : 0 < t.length := List.length_pos.mpr hne
    rw [read_string_strict, ← List.append_nil t,
      read_string_loop_consume check minL maxL t 0 [] [] hg (by simp; omega)]
    unfold read_string_loop
    rw [if_neg (by simp; intro h; exact hne (by simpa using h))]
    rw [if_pos (by simp; omega)]
  · intro check minL maxL
    rw [read_string_strict]
    unfold read_string_loop
    rw [if_pos rfl]

/-- Witness for C5: the spec's own example — reading exactly 6 bytes of
`"world! xxx"` returns `"world!"` and pushes the space back. -/
theorem c5_read_string_bounds_witness :
    read_string_strict (fun _ _ => true) 6 6
        (String.data "world!" ++ ' ' :: String.data "xxx") =
      .ok (String.data "world!", ' ' :: String.data "xxx") :=
  c5_read_string_bounds.2.1 (fun _ _ => true) 6 6 (String.data "world!") ' '
    (String.data "xxx") (by decide) (by decide) (by decide) (by decide)
    (by decide)

end Cplib

namespace Cplib

theorem read_fp_loop_sep (lz : Bool) (sep : Char) (rest x : List Char)
    (isz after : Bool) (hsep : sep = '.' ∨ sep = ',')
    (hx : x = [] ∨ x = ['-'] ∨ after = true) :
    read_fp_loop lz sep (sep :: rest) x isz after =
      .error (.unexpectedChar sep) := by
  have hdash : sep ≠ '-' := by rcases hsep with h | h <;> simp [h]
  unfold read_fp_loop
  rw [if_neg (by simp)]
  rw [if_neg (by simp [hdash])]
  rw [if_pos rfl, if_pos hx]

theorem read_fp_loop_eof_fail (lz : Bool) (sep : Char) (x : List Char)
    (isz after : Bool) (hx : x = [] ∨ is_numeric x.headI = false) :
    read_fp_loop lz sep [] x isz after = .error .eof := by
  unfold read_fp_loop
  rw [if_pos hx]

theorem read_fp_loop_eof_ok (lz : Bool) (sep : Char) (x : List Char)
    (isz after : Bool) (hne : x ≠ []) (hd : is_numeric x.headI = true) :
    read_fp_loop lz sep [] x isz after = .ok (x.reverse, []) := by
  unfold read_fp_loop
  rw [if_neg (by simp [hne, hd])]

/-- Counterexample to C6 as stated: the "separator may not be last" rule is
only enforced at end-of-input.  When the token is terminated by a
non-matching byte instead, a trailing decimal separator is accepted without
any violation: on input `"5. "` the parser returns the token `"5."` (whose
last character is the separator) successfully, pushing the space back. -/
theorem c6_decimal_separator_counterexample :
    read_floating_point_strict false '.' (String.data "5. ") =
      .ok (String.data "5.", [' ']) ∧
    List.getLast? (String.data "5.") = some '.' :=
  ⟨by decide, by decide⟩

/-- Claim C6, amended: at most one decimal separator is allowed per token —
a second one raises `UnexpectedToken` whatever came before (first conjunct,
`after` set); the separator may not be the first character of the token
(second and third conjuncts: rejected when nothing or only `-` was
accumulated, in particular as the very first byte); end-of-input mid-token
is successful termination if and only if the last consumed byte was a digit
(fourth and fifth conjuncts) — so a token ending at end-of-input cannot end
with the separator, but a token terminated by a non-matching byte can. -/
theorem c6_decimal_separator_policy :
    (∀ lz sep rest x isz, sep = '.' ∨ sep = ',' →
      read_fp_loop lz sep (sep :: rest) x isz true =
        .error (.unexpectedChar sep)) ∧
    (∀ lz sep rest x isz after, sep = '.' ∨ sep = ',' →
      x = [] ∨ x = ['-'] →
      read_fp_loop lz sep (sep :: rest) x isz after =
        .error (.unexpectedChar sep)) ∧
    (∀ lz sep rest, sep = '.' ∨ sep = ',' →
      read_floating_point_strict lz sep (sep :: rest) =
        .error (.unexpectedChar sep)) ∧
    (∀ lz sep x isz after, x = [] ∨ is_numeric x.headI = false →
      read_fp_loop lz sep [] x isz after = .error .eof) ∧
    (∀ lz sep x isz after, x ≠ [] → is_numeric x.headI = true →
      read_fp_loop lz sep [] x isz after = .ok (x.reverse, [])) := by
  refine ⟨?_, ?_, ?_, ?_, ?_⟩
  · intro lz sep rest x isz hsep
    exact read_fp_loop_sep lz sep rest x isz true hsep (by simp)
  · intro lz sep rest x isz after hsep hx
    exact read_fp_loop_sep lz sep rest x isz after hsep (by tauto)
  · intro lz sep rest hsep
    exact read_fp_loop_sep lz sep rest [] true false hsep (by simp)
  · exact read_fp_loop_eof_fail
  · exact read_fp_loop_eof_ok

/-- Witness for C6 (amended): the second separator of `"1.2.3"` is rejected,
a leading separator is rejected, and `"12"` at end-of-input succeeds while
`"12-"` at end-of-input propagates `Eof`. -/
theorem c6_decimal_separator_policy_witness :
    read_floating_point_strict false '.' (String.data ".5") =
      .error (.unexpectedChar '.') ∧
    read_fp_loop false '.' (String.data ".3") ('2' :: '.' :: '1' :: [])
        false true = .error (.unexpectedChar '.') ∧
    read_fp_loop false '.' [] ('2' :: '1' :: []) false false =
      .ok ('1' :: '2' :: [], []) ∧
    read_fp_loop false '.' [] ('-' :: '2' :: '1' :: []) false false =
      .error .eof :=
  ⟨c6_decimal_separator_policy.2.2.1 false '.' (String.data "5")
     (by decide),
   by
     have h := c6_decimal_separator_policy.1 false '.' (String.data "3")
       ('2' :: '.' :: '1' :: []) false (by decide)
     exact h,
   c6_decimal_separator_policy.2.2.2.2 false '.' ('2' :: '1' :: []) false
     false (by decide) (by decide),
   c6_decimal_separator_policy.2.2.2.1 false '.' ('-' :: '2' :: '1' :: [])
     false false (by decide)⟩

end Cplib

namespace Cplib

theorem indentChars_no_nl (l : List Char) (h : '\n' ∉ l) : indentChars l = l := by
  induction l with
  | nil => rfl
  | cons c rest ih =>
    unfold indentChars
    rw [if_neg (by simp at h; exact fun hc => h.1 hc.symm)]
    rw [ih (by simp at h; exact h.2)]

theorem indent_no_nl (s : String) (h : '\n' ∉ s.data) :
    indent s = "  " ++ s := by
  rw [indent, indentChars_no_nl s.data h]

theorem vand_message (a b : ValidationResult) :
    (vand a b).message = indent a.message ++ "\nAND\n" ++ indent b.message := by
  cases a <;> cases b <;> rfl

theorem vand_success (a b : ValidationResult) :
    (vand a b).success = (a.success && b.success) := by
  cases a <;> cases b <;> rfl

theorem vor_success (a b : ValidationResult) :
    (vor a b).success = (a.success || b.success) := by
  cases a <;> cases b <;> rfl

theorem vnot_success (r : ValidationResult) :
    (vnot r).success = !r.success := by
  cases r <;> rfl

theorem vnot_message (r : ValidationResult) :
    (vnot r).message = "NOT\n" ++ indent r.message := by
  cases r <;> rfl

theorem success_eq_not_failed (r : ValidationResult) :
    r.success = !r.failed := by
  cases r <;> rfl

/-- Claim C7: `ValidationResult` combinator semantics.  `a && b` is a
success iff both operands are, and its message contains both operands'
messages (for single-line operand messages) regardless of which branch
failed — the joint message equation holds unconditionally; `a || b` is a
success iff at least one operand is; `!r` flips the tag and re-wraps the
message, so `!(!r)` has the same tag as `r`; every result holds exactly one
of the two tags (`success = !failed`). -/
theorem c7_validation_combinators (a b r : ValidationResult)
    (ha : '\n' ∉ a.message.data) (hb : '\n' ∉ b.message.data) :
    ((vand a b).success = (a.success && b.success)) ∧
    ((vand a b).message = indent a.message ++ "\nAND\n" ++ indent b.message) ∧
    containsStr (vand a b).message a.message ∧
    containsStr (vand a b).message b.message ∧
    ((vor a b).success = (a.success || b.success)) ∧
    ((vnot r).success = !r.success) ∧
    ((vnot r).message = "NOT\n" ++ indent r.message) ∧
    ((vnot (vnot r)).success = r.success) ∧
    (r.success = !r.failed) := by
  refine ⟨vand_success a b, vand_message a b, ?_, ?_, vor_success a b,
    vnot_success r, vnot_message r, ?_, success_eq_not_failed r⟩
  · rw [containsStr, vand_message, indent_no_nl a.message ha]
    refine ⟨"  ".data, ("\nAND\n" ++ indent b.message).data, ?_⟩
    simp [String.data_append]
  · rw [containsStr, vand_message, indent_no_nl b.message hb]
    refine ⟨(indent a.message ++ "\nAND\n" ++ "  ").data, [], ?_⟩
    simp [String.data_append]
  · rw [vnot_success, vnot_success]
    simp

/-- Witness for C7, at the spec's example operands: `between(5, 0, 10)` is a
success, `lt(5, 3)` a failure, and their AND is a failure. -/
theorem c7_validation_combinators_witness :
    (vand (between 5 0 10) (lt 5 3)).success = false ∧
    (between 5 0 10).success = true := by
  have h := c7_validation_combinators (between 5 0 10) (lt 5 3)
    (vnot (between 5 0 10)) (by decide) (by decide)
  refine ⟨?_, by decide⟩
  rw [h.1]
  decide

end Cplib

namespace Cplib

theorem insertSorted_ne_nil (x : Int) (l : List Int) :
    insertSorted x l ≠ [] := by
  cases l with
  | nil => simp [insertSorted]
  | cons y rest =>
    unfold insertSorted
    by_cases h : x ≤ y
    · rw [if_pos h]
      simp
    · rw [if_neg h]
      simp

theorem sortAsc_ne_nil (v : List Int) (h : v ≠ []) : sortAsc v ≠ [] := by
  cases v with
  | nil => exact absurd rfl h
  | cons x rest => exact insertSorted_ne_nil x (sortAsc rest)

/-- Claim C10: non-emptiness is the unstated precondition of `sorted` and
`distinct`.  On every sequence with at least one element both operations
terminate with a `ValidationResult` (the model is defined, `isSome`); on
every one-element sequence both return Success with the adjacent-pair loop
body never running; on the empty sequence the source loops evaluate
`std::next(it)` past the end before the loop condition — undefined
behaviour — so the model leaves the result unspecified (`none`). -/
theorem c10_nonempty_precondition :
    (∀ (v : List Int) s d, v ≠ [] →
      (distinct v).isSome = true ∧ (sorted v s d).isSome = true) ∧
    (∀ (x : Int) s d,
      distinct [x] = some (.ok "Elements are distinct") ∧
      sorted [x] s d = some (.ok "Array is sorted")) ∧
    (∀ s d, distinct ([] : List Int) = none ∧
      sorted ([] : List Int) s d = none) := by
  refine ⟨?_, ?_, ?_⟩
  · intro v s d hne
    constructor
    · rw [distinct]
      cases hs : sortAsc v with
      | nil => exact absurd hs (sortAsc_ne_nil v hne)
      | cons x rest => simp
    · cases v with
      | nil => exact absurd rfl hne
      | cons x rest => simp [sorted]
  · intro x s d
    exact ⟨rfl, rfl⟩
  · intro s d
    exact ⟨rfl, rfl⟩

/-- Witness for C10: both operations are defined on the nonempty sequence
`[3, 1, 2]`. -/
theorem c10_nonempty_precondition_witness :
    (distinct [(3 : Int), 1, 2]).isSome = true ∧
    (sorted [(3 : Int), 1, 2] true false).isSome = true :=
  c10_nonempty_precondition.1 [(3 : Int), 1, 2] true false (by decide)

end Cplib
